import Mathlib

/-!
# Verification of the hypod VPS lifecycle manager

A shallow embedding of the core state and operations of `src/hypod.py`:
the resource catalog (`PLANS`, `PRICES`), the persistent store (credit
ledger `user_data` and per-owner container-record lists `vps_data`), the
lifecycle operations (`buy_with_credits`, `create_vps`, `delete_vps`,
`share_user`, `resize_vps`, `admin_credits`) and the CPU-guard loop
(`cpu_monitor` plus the `cpu-monitor` enable/disable command).

External effects (the LXC runtime and the JSON flush) are modelled by
explicit outcome parameters and by a trace of runtime calls; the state
mutation logic itself is translated from the Python source.
-/

set_option autoImplicit false

namespace Hypod

/-! ## Python string helpers -/

/-- First character of a string is the letter `A` — the shape of the
source's `.startswith('A')` check on a processor token. -/
def startsWithA (s : String) : Bool :=
  match s.data with
  | [] => false
  | c :: _ => c == 'A'

/-- Python's `str.upper()` on ASCII text: uppercase every character. -/
def pyUpper (s : String) : String :=
  String.mk (s.data.map Char.toUpper)

/-- Python's `str.capitalize()` on ASCII text: first character uppercased,
the rest lowercased. -/
def pyCapitalize (s : String) : String :=
  match s.data with
  | [] => ""
  | c :: rest => String.mk (c.toUpper :: rest.map Char.toLower)

/-- Python truthiness of an optional integer: `None` and `0` are falsy. -/
def pyTruthy : Option Int → Bool
  | none => false
  | some n => n != 0

/-! ## Decimal rendering of a natural number

The source builds container names with an f-string `f"vps-{user_id}-{vps_count}"`.
We render the counter with a fuel-driven structural recursion so that all
definitions evaluate inside the kernel. -/

/-- Digit characters of `n` accumulated in front of `acc`; `fuel` bounds the
recursion and is always given as at least `n + 1`. -/
def natDigitsCore : Nat → Nat → List Char → List Char
  | 0, _, acc => acc
  | fuel + 1, n, acc =>
    let d := Nat.digitChar (n % 10)
    if n / 10 = 0 then d :: acc else natDigitsCore fuel (n / 10) (d :: acc)

/-- Decimal string of a natural number. -/
def natStr (n : Nat) : String :=
  String.mk (natDigitsCore (n + 1) n [])

/-- Container name `f"vps-{user_id}-{vps_count}"` from the source. -/
def mkName (user_id : String) (vps_count : Nat) : String :=
  "vps-" ++ user_id ++ "-" ++ natStr vps_count

/-! ## Association lists standing for the Python dicts -/

/-- Lookup of a key in an association list (first occurrence wins, like a
Python dict read). -/
def alLookup {α : Type} (k : String) : List (String × α) → Option α
  | [] => none
  | (k', v) :: rest => if k' = k then some v else alLookup k rest

/-- Write of a key in an association list: replace the first occurrence, or
append a fresh entry (a Python dict insert preserves insertion order). -/
def alSet {α : Type} (m : List (String × α)) (k : String) (v : α) : List (String × α) :=
  match m with
  | [] => [(k, v)]
  | (k', v') :: rest => if k' = k then (k, v) :: rest else (k', v') :: alSet rest k v

/-- Deletion of a key from an association list (`del d[k]`). -/
def alErase {α : Type} (m : List (String × α)) (k : String) : List (String × α) :=
  match m with
  | [] => []
  | (k', v') :: rest => if k' = k then rest else (k', v') :: alErase rest k

/-! ## Data model -/

/-- One entry of a `vps_data` list: the persisted description of a container.
Resource amounts are carried as the integers the source formats into its
`"4GB"` / `"20GB"` strings. -/
structure VpsRecord where
  plan : Option String
  container_name : String
  ram : Int
  cpu : Int
  storage : Int
  status : String
  created_at : Nat
  processor : Option String
  shared_with : List String
  deriving DecidableEq, Repr

/-- The in-memory persistent store: the credit ledger `user_data` and the
per-owner record lists `vps_data`. -/
structure BotState where
  user_data : List (String × Int)
  vps_data : List (String × List VpsRecord)
  deriving DecidableEq, Repr

/-- Credit balance of a user, `0` when the user has no ledger entry. -/
def getCredits (st : BotState) (uid : String) : Int :=
  (alLookup uid st.user_data).getD 0

/-- Overwrite a user's credit balance. -/
def setCredits (st : BotState) (uid : String) (v : Int) : BotState :=
  { st with user_data := alSet st.user_data uid v }

/-- `if user_id not in user_data: user_data[user_id] = {"credits": 0}`. -/
def ensureUser (st : BotState) (uid : String) : BotState :=
  match alLookup uid st.user_data with
  | some _ => st
  | none => { st with user_data := st.user_data ++ [(uid, 0)] }

/-- Record list of an owner, `[]` when the owner has no entry. -/
def getVps (st : BotState) (uid : String) : List VpsRecord :=
  (alLookup uid st.vps_data).getD []

/-- Overwrite an owner's record list. -/
def setVps (st : BotState) (uid : String) (l : List VpsRecord) : BotState :=
  { st with vps_data := alSet st.vps_data uid l }

/-- `if user_id not in vps_data: vps_data[user_id] = []`. -/
def ensureVps (st : BotState) (uid : String) : BotState :=
  match alLookup uid st.vps_data with
  | some _ => st
  | none => { st with vps_data := st.vps_data ++ [(uid, [])] }

/-! ## Resource catalog -/

/-- Plan row of the `PLANS` table: ram (GB), cpu cores, default storage (GB). -/
structure PlanSpec where
  ram : Int
  cpu : Int
  storage : Int
  deriving DecidableEq, Repr

/-- The static `PLANS` table of the source. -/
def PLANS : String → Option PlanSpec
  | "Starter" => some ⟨4, 1, 20⟩
  | "Basic" => some ⟨8, 1, 30⟩
  | "Standard" => some ⟨12, 2, 50⟩
  | "Pro" => some ⟨16, 2, 80⟩
  | _ => none

/-- Price row of the `PRICES` table: Intel price, AMD price. -/
structure PriceRow where
  intel : Int
  amd : Int
  deriving DecidableEq, Repr

/-- The static `PRICES` table of the source. -/
def PRICES : String → Option PriceRow
  | "Starter" => some ⟨42, 83⟩
  | "Basic" => some ⟨96, 164⟩
  | "Standard" => some ⟨192, 320⟩
  | "Pro" => some ⟨220, 340⟩
  | _ => none

/-- `PRICES[plan][processor_key]` for a key that is `"AMD"` or `"Intel"`. -/
def priceFor (row : PriceRow) (key : String) : Int :=
  if key = "AMD" then row.amd else row.intel

/-- `processor_key = "AMD" if processor.upper().startswith('A') else "Intel"`,
applied after `processor = processor.capitalize()`. -/
def processor_key (processor : String) : String :=
  if startsWithA (pyUpper (pyCapitalize processor)) then "AMD" else "Intel"

/-- `storage_gb = storage if storage and storage > 0 else default_storage`. -/
def effective_storage (storage : Option Int) (default_storage : Int) : Int :=
  match storage with
  | none => default_storage
  | some s => if 0 < s then s else default_storage

/-! ## Runtime calls

Verbs issued to the external LXC runtime. Operations record the calls they
attempted (a failed call is still in the trace); outcomes of the calls are
supplied as explicit parameters. -/

/-- One verb sent to the LXC command line. -/
inductive RtCall where
  | launch (name : String) (ram_mb cpu storage_gb : Int)
  | setMemory (name : String) (mb : Int)
  | setCpu (name : String) (n : Int)
  | quotaOverride (name : String) (gb : Int)
  | growFs (name : String)
  | deleteForce (name : String)
  | stopAll
  deriving DecidableEq, Repr

/-! ## Lifecycle operations -/

/-- Result of `buy_with_credits` (`.buywc`). -/
inductive BuyResult where
  | unknownPlan
  | unknownProcessor
  | insufficientCredits
  | provisionFailed
  | purchased (v : VpsRecord) (cost : Int)
  deriving DecidableEq, Repr

/-- The `.buywc` command body: capitalize the plan and processor tokens,
reject unknown keys, check and debit credits, provision, and either append
the record or refund the debit. `provisionOk` is the outcome of the
container provisioning sequence (`core_create_container`). -/
def buy_with_credits (st : BotState) (uid planArg procArg : String)
    (storage : Option Int) (now : Nat) (provisionOk : Bool) : BuyResult × BotState :=
  let plan := pyCapitalize planArg
  let processor := pyCapitalize procArg
  match PRICES plan, PLANS plan with
  | some prices, some plan_spec =>
    if processor ∈ ["Intel", "AMD", "Amd"] then
      let key := processor_key procArg
      let cost := priceFor prices key
      let st := ensureUser st uid
      if getCredits st uid < cost then (.insufficientCredits, st)
      else
        let st := setCredits st uid (getCredits st uid - cost)
        let st := ensureVps st uid
        let vlist := getVps st uid
        let vps_count := vlist.length + 1
        let container_name := mkName uid vps_count
        let storage_gb := effective_storage storage plan_spec.storage
        if provisionOk then
          let vps_info : VpsRecord :=
            { plan := some plan, container_name := container_name,
              ram := plan_spec.ram, cpu := plan_spec.cpu, storage := storage_gb,
              status := "running", created_at := now,
              processor := some key, shared_with := [] }
          (.purchased vps_info cost, setVps st uid (vlist ++ [vps_info]))
        else
          (.provisionFailed, setCredits st uid (getCredits st uid + cost))
    else (.unknownProcessor, st)
  | _, _ => (.unknownPlan, st)

/-- Result of `create_vps` (`.create`, admin only). -/
inductive CreateResult where
  | invalidSpecs
  | creationFailed
  | created (v : VpsRecord)
  deriving DecidableEq, Repr

/-- The `.create` command body: validate the requested resources, compute the
next container name from the current list length, provision, and append the
record on success. -/
def create_vps (st : BotState) (uid : String) (ram cpu storage : Int)
    (now : Nat) (provisionOk : Bool) : CreateResult × BotState :=
  if ram ≤ 0 ∨ cpu ≤ 0 ∨ storage ≤ 0 then (.invalidSpecs, st)
  else
    let st := ensureVps st uid
    let vlist := getVps st uid
    let vps_count := vlist.length + 1
    let container_name := mkName uid vps_count
    if provisionOk then
      let vps_info : VpsRecord :=
        { plan := none, container_name := container_name,
          ram := ram, cpu := cpu, storage := storage,
          status := "running", created_at := now,
          processor := none, shared_with := [] }
      (.created vps_info, setVps st uid (vlist ++ [vps_info]))
    else (.creationFailed, st)

/-- Result of `delete_vps` (`.delete-vps`, admin only). -/
inductive DeleteResult where
  | invalidVps
  | deletionFailed
  | deleted
  deriving DecidableEq, Repr

/-- The `.delete-vps` command body: validate the 1-based index, force-delete
through the runtime, then remove the record from the owner's list; drop the
owner's key entirely when the list becomes empty. -/
def delete_vps (st : BotState) (uid : String) (vps_number : Int)
    (runtimeOk : Bool) : DeleteResult × BotState :=
  match alLookup uid st.vps_data with
  | none => (.invalidVps, st)
  | some vlist =>
    if vps_number < 1 ∨ vps_number > vlist.length then (.invalidVps, st)
    else if runtimeOk then
      let vlist' := vlist.eraseIdx (vps_number - 1).toNat
      if vlist'.isEmpty then (.deleted, { st with vps_data := alErase st.vps_data uid })
      else (.deleted, setVps st uid vlist')
    else (.deletionFailed, st)

/-- Result of `share_user` (`.share-user`). -/
inductive ShareResult where
  | invalidVps
  | alreadyShared
  | shared
  deriving DecidableEq, Repr

/-- The `.share-user` command body: validate the 1-based index, reject an
already-present grantee, otherwise append the grantee to `shared_with`. -/
def share_user (st : BotState) (author grantee : String) (vps_number : Int) :
    ShareResult × BotState :=
  match alLookup author st.vps_data with
  | none => (.invalidVps, st)
  | some vlist =>
    if vps_number < 1 ∨ vps_number > vlist.length then (.invalidVps, st)
    else
      let idx := (vps_number - 1).toNat
      match vlist[idx]? with
      | none => (.invalidVps, st)
      | some v =>
        if grantee ∈ v.shared_with then (.alreadyShared, st)
        else
          (.shared, setVps st author
            (vlist.set idx { v with shared_with := v.shared_with ++ [grantee] }))

/-- The `.adminc` command body: reject a non-positive amount, otherwise add
the amount to the user's (lazily created) ledger entry. -/
def admin_credits (st : BotState) (uid : String) (amount : Int) : Bool × BotState :=
  if amount ≤ 0 then (false, st)
  else
    let st := ensureUser st uid
    (true, setCredits st uid (getCredits st uid + amount))

/-! ## Resize -/

/-- Outcome of a `resize_vps` run: whether it completed without a raised
runtime error, the resulting store, whether `save_data` ran, and the trace
of runtime calls attempted. -/
structure ResizeResult where
  ok : Bool
  st : BotState
  flushed : Bool
  calls : List RtCall
  deriving DecidableEq, Repr

/-- The storage-update loop of `.resize`: set the `storage` field of every
record whose `container_name` matches, across all owners. -/
def update_storage_records (st : BotState) (container : String) (gb : Int) : BotState :=
  { st with vps_data := st.vps_data.map (fun p =>
      (p.1, p.2.map (fun v =>
        if v.container_name = container then { v with storage := gb } else v))) }

/-- The `.resize` command body. The three runtime outcomes are the results
of `lxc config set … limits.memory`, `lxc config set … limits.cpu`, and the
storage-quota override inside `set_root_disk_size` (whose in-guest
filesystem grow step is best-effort and cannot raise). A supplied dimension
equal to `0` is skipped, mirroring Python truthiness. The single
`save_data` call runs only when no runtime call raised. -/
def resize_vps (st : BotState) (container : String) (ram cpu storage : Option Int)
    (ramOk cpuOk quotaOk : Bool) : ResizeResult :=
  let ramCalls : List RtCall :=
    if pyTruthy ram then [.setMemory container (ram.getD 0 * 1024)] else []
  if pyTruthy ram && !ramOk then ⟨false, st, false, ramCalls⟩
  else
    let cpuCalls := ramCalls ++
      (if pyTruthy cpu then [.setCpu container (cpu.getD 0)] else [])
    if pyTruthy cpu && !cpuOk then ⟨false, st, false, cpuCalls⟩
    else
      let storCalls := cpuCalls ++
        (if pyTruthy storage then [.quotaOverride container (storage.getD 0)] else [])
      if pyTruthy storage && !quotaOk then ⟨false, st, false, storCalls⟩
      else if pyTruthy storage then
        ⟨true, update_storage_records st container (storage.getD 0), true,
          storCalls ++ [.growFs container]⟩
      else ⟨true, st, true, storCalls⟩

/-- The ram-update a per-dimension resize would perform on the store. -/
def update_ram_records (st : BotState) (container : String) (gb : Int) : BotState :=
  { st with vps_data := st.vps_data.map (fun p =>
      (p.1, p.2.map (fun v =>
        if v.container_name = container then { v with ram := gb } else v))) }

/-- The cpu-update a per-dimension resize would perform on the store. -/
def update_cpu_records (st : BotState) (container : String) (n : Int) : BotState :=
  { st with vps_data := st.vps_data.map (fun p =>
      (p.1, p.2.map (fun v =>
        if v.container_name = container then { v with cpu := n } else v))) }

/-- Resize as the specification words it, for refinement comparison with
`resize_vps`: each supplied dimension is applied independently of the
others, and each dimension whose runtime call succeeds has its stored field
updated and flushed on its own. -/
def resize_spec (st : BotState) (container : String) (ram cpu storage : Option Int)
    (ramOk cpuOk quotaOk : Bool) : ResizeResult :=
  let ramStep : ResizeResult :=
    if pyTruthy ram then
      if ramOk then
        ⟨true, update_ram_records st container (ram.getD 0), true,
          [.setMemory container (ram.getD 0 * 1024)]⟩
      else ⟨false, st, false, [.setMemory container (ram.getD 0 * 1024)]⟩
    else ⟨true, st, false, []⟩
  let cpuStep : ResizeResult :=
    if pyTruthy cpu then
      if cpuOk then
        ⟨ramStep.ok, update_cpu_records ramStep.st container (cpu.getD 0), true,
          ramStep.calls ++ [.setCpu container (cpu.getD 0)]⟩
      else ⟨false, ramStep.st, ramStep.flushed,
        ramStep.calls ++ [.setCpu container (cpu.getD 0)]⟩
    else { ramStep with }
  if pyTruthy storage then
    if quotaOk then
      ⟨cpuStep.ok, update_storage_records cpuStep.st container (storage.getD 0), true,
        cpuStep.calls ++ [.quotaOverride container (storage.getD 0), .growFs container]⟩
    else ⟨false, cpuStep.st, cpuStep.flushed,
      cpuStep.calls ++ [.quotaOverride container (storage.getD 0)]⟩
  else cpuStep

/-! ## CPU guard -/

/-- `CPU_THRESHOLD = 90`. -/
def CPU_THRESHOLD : Nat := 90

/-- Mark one record: `if vps.get('status') == 'running': vps['status'] = 'stopped'`. -/
def stopRunning (v : VpsRecord) : VpsRecord :=
  if v.status = "running" then { v with status := "stopped" } else v

/-- The guard's store update after `lxc stop --all --force` succeeds: every
running record of every owner is marked stopped. -/
def stopAllRecords (st : BotState) : BotState :=
  { st with vps_data := st.vps_data.map (fun p => (p.1, p.2.map stopRunning)) }

/-- State shared by the `cpu_monitor` thread and the `cpu-monitor` command:
the `cpu_monitor_active` flag, whether the monitor thread is still inside
its `while` loop, the store, the usage samples taken so far, and the trace
of runtime calls. -/
structure GuardState where
  active : Bool
  threadAlive : Bool
  st : BotState
  samples : List Nat
  calls : List RtCall
  deriving DecidableEq, Repr

/-- An event of the guard system: the admin toggle commands, one wake-up of
the monitor loop (with that iteration's sampled usage and the outcome of
the stop-all call, consulted only above the threshold), or a wake-up whose
body raises and is caught by the loop's outer handler. -/
inductive GuardEvent where
  | enable
  | disable
  | tick (usage : Nat) (stopAllOk : Bool)
  | tickFail
  deriving DecidableEq, Repr

/-- One step of the guard system. A wake-up first re-checks the `while`
condition: if the flag is off, the thread leaves the loop and is never
restarted (the thread is spawned once at import time). While alive and
active, the iteration samples usage and, above the threshold, issues one
stop-all and marks the records; a failing stop-all or a raising iteration
leaves the store and the flags unchanged. -/
def guardStep (g : GuardState) : GuardEvent → GuardState
  | .enable => { g with active := true }
  | .disable => { g with active := false }
  | .tick usage stopAllOk =>
    if !g.threadAlive then g
    else if !g.active then { g with threadAlive := false }
    else
      let g := { g with samples := g.samples ++ [usage] }
      if CPU_THRESHOLD < usage then
        let g := { g with calls := g.calls ++ [.stopAll] }
        if stopAllOk then { g with st := stopAllRecords g.st } else g
      else g
  | .tickFail =>
    if !g.threadAlive then g
    else if !g.active then { g with threadAlive := false }
    else g

/-! ## Invariant predicates -/

/-- `namedFrom uid k l`: the records of `l` are named `vps-<uid>-<k>`,
`vps-<uid>-<k+1>`, … in order. -/
def namedFrom (uid : String) : Nat → List VpsRecord → Bool
  | _, [] => true
  | k, v :: rest => (v.container_name == mkName uid k) && namedFrom uid (k + 1) rest

/-- Every owner's list carries the historical names `vps-<owner>-1` …
`vps-<owner>-<len>` in order — the shape a deletion-free history produces. -/
def namedOkB (st : BotState) : Bool :=
  st.vps_data.all (fun p => namedFrom p.1 1 p.2)

/-- No record's `shared_with` contains its own owner. -/
def sharedOkB (st : BotState) : Bool :=
  st.vps_data.all (fun p => p.2.all (fun v => !(decide (p.1 ∈ v.shared_with))))

/-- Numeric value of a digit string, used to invert `natDigitsCore`. -/
def digitsVal (l : List Char) : Nat :=
  l.foldl (fun a c => 10 * a + (c.toNat - 48)) 0

/-! ## Concrete states used by scenario theorems -/

/-- The empty store: no ledger entries, no records. -/
def emptyState : BotState := ⟨[], []⟩

/-- A plain record for owner `u` with historical sequence number `i`. -/
def exRecord (i : Nat) : VpsRecord :=
  ⟨none, mkName "u" i, 4, 1, 10, "running", 0, none, []⟩

/-- Owner `u` with three records named `vps-u-1`, `vps-u-2`, `vps-u-3`. -/
def threeVpsState : BotState := ⟨[], [("u", [exRecord 1, exRecord 2, exRecord 3])]⟩

/-- Owner `u` with one record, shared with nobody. -/
def oneVpsState : BotState := ⟨[], [("u", [exRecord 1])]⟩

/-- Owner `u` with one record named `c`: 4 GB ram, 1 cpu, 20 GB storage. -/
def resizeExState : BotState :=
  ⟨[], [("u", [⟨none, "c", 4, 1, 20, "running", 0, none, []⟩])]⟩

/-- Guard system at import time: flag on, monitor thread inside its loop,
no samples and no runtime calls yet. -/
def guardInit (st : BotState) : GuardState := ⟨true, true, st, [], []⟩

/-! ## Association-list lemmas -/

theorem alLookup_alSet_self {α : Type} (m : List (String × α)) (k : String) (v : α) :
    alLookup k (alSet m k v) = some v := by
  induction m with
  | nil => simp [alLookup, alSet]
  | cons p rest ih =>
    obtain ⟨k', v'⟩ := p
    by_cases h : k' = k
    · simp [alSet, alLookup, h]
    · simp [alSet, alLookup, h, ih]

theorem alLookup_alSet_ne {α : Type} (m : List (String × α)) (k k' : String) (v : α)
    (h : k' ≠ k) : alLookup k' (alSet m k v) = alLookup k' m := by
  induction m with
  | nil =>
    simp only [alSet, alLookup, if_neg (fun hh => h (Eq.symm hh))]
  | cons p rest ih =>
    obtain ⟨ka, va⟩ := p
    by_cases hk : ka = k
    · subst hk
      simp only [alSet, if_pos rfl, alLookup, if_neg (fun hh => h (Eq.symm hh)),
        if_neg (fun hh : ka = k' => h (Eq.symm hh))]
    · simp only [alSet, if_neg hk, alLookup]
      by_cases hk' : ka = k'
      · simp [hk']
      · simp [hk', ih]

theorem alLookup_append_self {α : Type} (m : List (String × α)) (k : String) (v : α)
    (h : alLookup k m = none) : alLookup k (m ++ [(k, v)]) = some v := by
  induction m with
  | nil => simp [alLookup]
  | cons p rest ih =>
    obtain ⟨k', v'⟩ := p
    by_cases hk : k' = k
    · simp [alLookup, hk] at h
    · simp only [List.cons_append, alLookup, if_neg hk] at h ⊢
      exact ih h

theorem alLookup_append_ne {α : Type} (m : List (String × α)) (k k' : String) (v : α)
    (h : k' ≠ k) : alLookup k' (m ++ [(k, v)]) = alLookup k' m := by
  induction m with
  | nil =>
    simp only [List.nil_append, alLookup, if_neg (fun hh => h (Eq.symm hh))]
  | cons p rest ih =>
    obtain ⟨ka, va⟩ := p
    by_cases hk : ka = k'
    · simp [alLookup, hk]
    · simp [alLookup, hk, ih]

theorem alLookup_map_values {α β : Type} (m : List (String × α)) (k : String)
    (f : α → β) :
    alLookup k (m.map (fun p => (p.1, f p.2))) = (alLookup k m).map f := by
  induction m with
  | nil => simp [alLookup]
  | cons p rest ih =>
    obtain ⟨k', v'⟩ := p
    by_cases h : k' = k
    · simp [alLookup, h]
    · simp [alLookup, h, ih]

theorem mem_alSet {α : Type} (m : List (String × α)) (k : String) (v : α)
    (q : String × α) (hq : q ∈ alSet m k v) : q = (k, v) ∨ q ∈ m := by
  induction m with
  | nil => simpa [alSet] using hq
  | cons p rest ih =>
    obtain ⟨k', v'⟩ := p
    by_cases h : k' = k
    · simp only [alSet, if_pos h] at hq
      rcases List.mem_cons.mp hq with h1 | h1
      · exact Or.inl h1
      · exact Or.inr (List.mem_cons_of_mem _ h1)
    · simp only [alSet, if_neg h] at hq
      rcases List.mem_cons.mp hq with h1 | h1
      · exact Or.inr (h1 ▸ List.mem_cons_self _ _)
      · rcases ih h1 with h2 | h2
        · exact Or.inl h2
        · exact Or.inr (List.mem_cons_of_mem _ h2)

theorem alLookup_mem {α : Type} (m : List (String × α)) (k : String) (v : α)
    (h : alLookup k m = some v) : (k, v) ∈ m := by
  induction m with
  | nil => simp [alLookup] at h
  | cons p rest ih =>
    obtain ⟨k', v'⟩ := p
    by_cases hk : k' = k
    · subst hk
      simp only [alLookup, if_true, eq_self_iff_true, Option.some.injEq] at h
      exact h ▸ List.mem_cons_self _ _
    · simp only [alLookup, if_neg hk] at h
      exact List.mem_cons_of_mem _ (ih h)

/-! ## Store accessor lemmas -/

theorem getVps_setCredits (st : BotState) (u w : String) (v : Int) :
    getVps (setCredits st u v) w = getVps st w := rfl

theorem getCredits_setVps (st : BotState) (u w : String) (l : List VpsRecord) :
    getCredits (setVps st u l) w = getCredits st w := rfl

theorem getCredits_setCredits_self (st : BotState) (u : String) (v : Int) :
    getCredits (setCredits st u v) u = v := by
  simp [getCredits, setCredits, alLookup_alSet_self]

theorem getVps_setVps_self (st : BotState) (u : String) (l : List VpsRecord) :
    getVps (setVps st u l) u = l := by
  simp [getVps, setVps, alLookup_alSet_self]

theorem getCredits_ensureUser (st : BotState) (u w : String) :
    getCredits (ensureUser st u) w = getCredits st w := by
  unfold ensureUser
  cases h : alLookup u st.user_data with
  | some v => rfl
  | none =>
    by_cases hw : w = u
    · subst hw
      simp [getCredits, alLookup_append_self _ _ _ h, h]
    · simp [getCredits, alLookup_append_ne _ _ _ _ (fun hh => hw hh)]

theorem getVps_ensureUser (st : BotState) (u w : String) :
    getVps (ensureUser st u) w = getVps st w := by
  unfold ensureUser
  cases alLookup u st.user_data <;> rfl

theorem getVps_ensureVps (st : BotState) (u w : String) :
    getVps (ensureVps st u) w = getVps st w := by
  unfold ensureVps
  cases h : alLookup u st.vps_data with
  | some v => rfl
  | none =>
    by_cases hw : w = u
    · subst hw
      simp [getVps, alLookup_append_self _ _ _ h, h]
    · simp [getVps, alLookup_append_ne _ _ _ _ (fun hh => hw hh)]

theorem getCredits_ensureVps (st : BotState) (u w : String) :
    getCredits (ensureVps st u) w = getCredits st w := by
  unfold ensureVps
  cases alLookup u st.vps_data <;> rfl

theorem vps_data_ensureUser (st : BotState) (u : String) :
    (ensureUser st u).vps_data = st.vps_data := by
  unfold ensureUser
  cases alLookup u st.user_data <;> rfl

/-! ## Decimal-string lemmas -/

theorem natDigitsCore_append (fuel : Nat) :
    ∀ (n : Nat) (acc : List Char),
      natDigitsCore fuel n acc = natDigitsCore fuel n [] ++ acc := by
  induction fuel with
  | zero => intro n acc; simp [natDigitsCore]
  | succ fuel ih =>
    intro n acc
    by_cases h : n / 10 = 0
    · simp [natDigitsCore, h]
    · simp only [natDigitsCore, if_neg h]
      rw [ih (n / 10) [Nat.digitChar (n % 10)], ih (n / 10) (Nat.digitChar (n % 10) :: acc)]
      simp

theorem digitsVal_append_singleton (l : List Char) (c : Char) :
    digitsVal (l ++ [c]) = 10 * digitsVal l + (c.toNat - 48) := by
  simp [digitsVal, List.foldl_append]

theorem digitChar_toNat (d : Nat) (h : d < 10) : (Nat.digitChar d).toNat = 48 + d := by
  revert h
  revert d
  decide

theorem natDigitsCore_val (fuel : Nat) :
    ∀ n : Nat, n < fuel → digitsVal (natDigitsCore fuel n []) = n := by
  induction fuel with
  | zero => intro n h; omega
  | succ fuel ih =>
    intro n h
    by_cases h10 : n / 10 = 0
    · have hn : n < 10 := by omega
      have hmod : n % 10 = n := Nat.mod_eq_of_lt hn
      simp only [natDigitsCore, if_pos h10, digitsVal, List.foldl_cons, List.foldl_nil]
      rw [hmod, digitChar_toNat n hn]
      omega
    · have hpos : 0 < n := by
        rcases Nat.eq_zero_or_pos n with h0 | h0
        · subst h0; simp at h10
        · exact h0
      have hlt : n / 10 < n := Nat.div_lt_self hpos (by omega)
      have hfuel : n / 10 < fuel := by omega
      simp only [natDigitsCore, if_neg h10]
      rw [natDigitsCore_append fuel (n / 10) [Nat.digitChar (n % 10)],
        digitsVal_append_singleton, ih (n / 10) hfuel,
        digitChar_toNat (n % 10) (Nat.mod_lt _ (by omega))]
      omega

theorem natStr_inj (n m : Nat) (h : natStr n = natStr m) : n = m := by
  have hd : natDigitsCore (n + 1) n [] = natDigitsCore (m + 1) m [] := by
    have := congrArg String.data h
    simpa [natStr] using this
  have h1 := natDigitsCore_val (n + 1) n (by omega)
  have h2 := natDigitsCore_val (m + 1) m (by omega)
  rw [hd, h2] at h1
  omega

theorem natDigitsCore_digits (fuel : Nat) :
    ∀ (n : Nat) (acc : List Char), (∀ c ∈ acc, c.isDigit = true) →
      ∀ c ∈ natDigitsCore fuel n acc, c.isDigit = true := by
  induction fuel with
  | zero => intro n acc hacc; exact hacc
  | succ fuel ih =>
    intro n acc hacc c hc
    have hdig : (Nat.digitChar (n % 10)).isDigit = true := by
      have h10 : n % 10 < 10 := Nat.mod_lt _ (by omega)
      revert h10
      generalize n % 10 = d
      revert d
      decide
    by_cases h : n / 10 = 0
    · simp only [natDigitsCore, if_pos h] at hc
      rcases List.mem_cons.mp hc with h1 | h1
      · exact h1 ▸ hdig
      · exact hacc c h1
    · simp only [natDigitsCore, if_neg h] at hc
      refine ih (n / 10) (Nat.digitChar (n % 10) :: acc) ?_ c hc
      intro c' hc'
      rcases List.mem_cons.mp hc' with h1 | h1
      · exact h1 ▸ hdig
      · exact hacc c' h1

theorem dash_not_mem_natStr (n : Nat) : '-' ∉ (natStr n).data := by
  intro hmem
  have := natDigitsCore_digits (n + 1) n [] (by intro c hc; simp at hc) '-' (by
    simpa [natStr] using hmem)
  simp [Char.isDigit] at this

/-- Splitting a character list at a separator that occurs in neither left
part is unambiguous. -/
theorem sep_split (s : Char) :
    ∀ (u1 : List Char) (v1 : List Char) (u2 : List Char) (v2 : List Char),
      s ∉ u1 → s ∉ u2 → u1 ++ s :: v1 = u2 ++ s :: v2 → u1 = u2 ∧ v1 = v2 := by
  intro u1
  induction u1 with
  | nil =>
    intro v1 u2 v2 _ h2 h
    cases u2 with
    | nil => simpa using h
    | cons c u2' =>
      simp only [List.nil_append, List.cons_append, List.cons.injEq] at h
      exact absurd (h.1 ▸ List.mem_cons_self c u2') h2
  | cons c u1' ih =>
    intro v1 u2 v2 h1 h2 h
    cases u2 with
    | nil =>
      simp only [List.cons_append, List.nil_append, List.cons.injEq] at h
      exact absurd (h.1 ▸ List.mem_cons_self c u1') h1
    | cons d u2' =>
      simp only [List.cons_append, List.cons.injEq] at h
      obtain ⟨hcd, hrest⟩ := h
      have h1' : s ∉ u1' := fun hh => h1 (List.mem_cons_of_mem _ hh)
      have h2' : s ∉ u2' := fun hh => h2 (List.mem_cons_of_mem _ hh)
      obtain ⟨hu, hv⟩ := ih v1 u2' v2 h1' h2' hrest
      exact ⟨by rw [hcd, hu], hv⟩

theorem mkName_data (uid : String) (k : Nat) :
    (mkName uid k).data = ("vps-".data ++ uid.data) ++ '-' :: (natStr k).data := by
  simp [mkName, String.data_append, List.append_assoc]

theorem mkName_inj (a : String) (n : Nat) (b : String) (m : Nat)
    (h : mkName a n = mkName b m) : a = b ∧ n = m := by
  have hdata := congrArg String.data h
  rw [mkName_data, mkName_data] at hdata
  have hrev := congrArg List.reverse hdata
  simp only [List.reverse_append, List.reverse_cons] at hrev
  rw [List.append_assoc, List.append_assoc] at hrev
  have hsplit := sep_split '-' (natStr n).data.reverse _ (natStr m).data.reverse _
    (by simpa [List.mem_reverse] using dash_not_mem_natStr n)
    (by simpa [List.mem_reverse] using dash_not_mem_natStr m)
    (by simpa using hrev)
  obtain ⟨hds, hrest⟩ := hsplit
  have hnat : (natStr n).data = (natStr m).data := by
    have := congrArg List.reverse hds
    simpa using this
  have hn : n = m := natStr_inj n m (String.ext hnat)
  have hab : a.data = b.data := by
    have := congrArg List.reverse hrest
    simp only [List.reverse_append, List.reverse_reverse] at this
    exact List.append_cancel_left this
  exact ⟨String.ext hab, hn⟩

/-! ## Claim theorems -/

/-- C9: `price(P,C)` is the fixed `PRICES` table; granting 100 credits to
`U1` and purchasing plan Starter with processor Intel costs 42, leaves the
balance at 58, and appends exactly one record with 4 GB ram, 1 cpu core,
20 GB storage and status running. -/
theorem purchase_starter_scenario :
    PRICES "Starter" = some ⟨42, 83⟩ ∧
    getCredits (buy_with_credits (admin_credits emptyState "U1" 100).2
      "U1" "Starter" "Intel" none 7 true).2 "U1" = 58 ∧
    getVps (buy_with_credits (admin_credits emptyState "U1" 100).2
      "U1" "Starter" "Intel" none 7 true).2 "U1"
      = [⟨some "Starter", "vps-U1-1", 4, 1, 20, "running", 7, some "Intel", []⟩] ∧
    (buy_with_credits (admin_credits emptyState "U1" 100).2
      "U1" "Starter" "Intel" none 7 true).1
      = .purchased ⟨some "Starter", "vps-U1-1", 4, 1, 20, "running", 7, some "Intel", []⟩ 42 := by
  decide

/-- C5: while the guard is Active a loop wake-up samples usage, but after a
`disable` the monitor thread leaves its `while` loop at the next wake-up
and `enable` never restarts it, so no sample (and no stop-all) ever happens
again even though the flag is back to Active — the enable half of the
toggle is dead after the first disable. -/
theorem guard_disable_enable_no_resume :
    (guardStep (guardInit resizeExState) (.tick 95 true)).samples = [95] ∧
    (List.foldl guardStep (guardInit resizeExState)
      [.disable, .tick 95 true, .enable, .tick 95 true, .tick 95 true]).active = true ∧
    (List.foldl guardStep (guardInit resizeExState)
      [.disable, .tick 95 true, .enable, .tick 95 true, .tick 95 true]).threadAlive = false ∧
    (List.foldl guardStep (guardInit resizeExState)
      [.disable, .tick 95 true, .enable, .tick 95 true, .tick 95 true]).samples = [] ∧
    (List.foldl guardStep (guardInit resizeExState)
      [.disable, .tick 95 true, .enable, .tick 95 true, .tick 95 true]).calls = [] := by
  decide

/-- C2 counterexample: with three records `vps-u-1 … vps-u-3`, deleting
VPS #2 and then creating a new VPS assigns the already-used name `vps-u-3`:
the sequence number 3 is reused after a deletion and `container_name`
uniqueness is violated. -/
theorem name_reuse_after_delete_cex :
    ((getVps (create_vps (delete_vps threeVpsState "u" 2 true).2 "u" 4 1 10 0 true).2 "u").map
      (fun v => v.container_name)) = ["vps-u-1", "vps-u-3", "vps-u-3"] ∧
    ¬ ((getVps (create_vps (delete_vps threeVpsState "u" 2 true).2 "u" 4 1 10 0 true).2 "u").map
      (fun v => v.container_name)).Nodup := by
  decide

/-- C6 counterexample: `share-user` performs no owner/grantee distinctness
check, so an owner sharing VPS #1 with themself succeeds and puts the
owner's own id into `shared_with`, breaking the claimed invariant. -/
theorem share_with_self_cex :
    (share_user oneVpsState "u" "u" 1).1 = .shared ∧
    (getVps (share_user oneVpsState "u" "u" 1).2 "u").map (fun v => v.shared_with)
      = [["u"]] ∧
    sharedOkB (share_user oneVpsState "u" "u" 1).2 = false := by
  decide

/-- C3 counterexample: `resize` does not apply the supplied dimensions
independently. With ram and storage both supplied and the ram runtime call
failing, the code raises out of the whole command after the single
`limits.memory` call — the storage quota call is never attempted — whereas
per-dimension independence (the behaviour the claim describes, embodied by
`resize_spec`) would still attempt the storage quota override. -/
theorem resize_independence_cex :
    (resize_vps resizeExState "c" (some 8) none (some 50) false true true).calls
      = [.setMemory "c" 8192] ∧
    RtCall.quotaOverride "c" 50
      ∈ (resize_spec resizeExState "c" (some 8) none (some 50) false true true).calls ∧
    resize_vps resizeExState "c" (some 8) none (some 50) false true true
      ≠ resize_spec resizeExState "c" (some 8) none (some 50) false true true := by
  decide

theorem PRICES_domain (p : String) (r : PriceRow) (h : PRICES p = some r) :
    p = "Starter" ∨ p = "Basic" ∨ p = "Standard" ∨ p = "Pro" := by
  unfold PRICES at h
  split at h <;> simp_all

theorem PLANS_of_PRICES (p : String) (r : PriceRow) (h : PRICES p = some r) :
    ∃ sp, PLANS p = some sp := by
  rcases PRICES_domain p r h with h1 | h1 | h1 | h1 <;> subst h1 <;> exact ⟨_, rfl⟩

/-- A non-positive storage override is falsy or fails the `> 0` test, so the
plan default is used. -/
theorem effective_storage_nonpos (s d : Int) (h : s ≤ 0) :
    effective_storage (some s) d = effective_storage none d := by
  simp [effective_storage, not_lt.mpr h]

/-- C10: a storage override that is zero or negative is silently replaced by
the plan's default storage — the whole purchase behaves exactly as if no
override had been supplied, rather than failing on the non-positive
request. -/
theorem nonpositive_storage_override_default
    (st : BotState) (uid planArg procArg : String) (now : Nat) (ok : Bool)
    (s : Int) (h : s ≤ 0) :
    buy_with_credits st uid planArg procArg (some s) now ok
      = buy_with_credits st uid planArg procArg none now ok := by
  simp only [buy_with_credits, effective_storage_nonpos s _ h]

/-- C10 witness: a `-5` override on a Starter/Intel purchase coincides with
the no-override call and yields the 20 GB plan default. -/
theorem nonpositive_storage_override_default_witness :
    ((-5 : Int) ≤ 0) ∧
    buy_with_credits (admin_credits emptyState "U1" 100).2
        "U1" "Starter" "Intel" (some (-5)) 7 true
      = buy_with_credits (admin_credits emptyState "U1" 100).2
        "U1" "Starter" "Intel" none 7 true ∧
    (buy_with_credits (admin_credits emptyState "U1" 100).2
        "U1" "Starter" "Intel" (some (-5)) 7 true).1
      = .purchased ⟨some "Starter", "vps-U1-1", 4, 1, 20, "running", 7, some "Intel", []⟩ 42 :=
  ⟨by decide,
   nonpositive_storage_override_default (admin_credits emptyState "U1" 100).2
     "U1" "Starter" "Intel" 7 true (-5) (by decide),
   by decide⟩

/-- C4: an unknown plan key fails with the unknown-plan error and an
unknown processor key (anything not a case variant of Intel/AMD) fails with
the unknown-processor error; every accepted processor token is
case-normalized and maps to AMD exactly when the normalized token starts
with the letter A, and to Intel otherwise. -/
theorem processor_plan_mapping
    (st : BotState) (uid planArg procArg : String) (storage : Option Int)
    (now : Nat) (ok : Bool) :
    (PRICES (pyCapitalize planArg) = none →
      buy_with_credits st uid planArg procArg storage now ok = (.unknownPlan, st)) ∧
    (PRICES (pyCapitalize planArg) ≠ none →
      pyCapitalize procArg ∉ (["Intel", "AMD", "Amd"] : List String) →
      buy_with_credits st uid planArg procArg storage now ok = (.unknownProcessor, st)) ∧
    (pyCapitalize procArg ∈ (["Intel", "AMD", "Amd"] : List String) →
      (processor_key procArg = "AMD" ↔ startsWithA (pyCapitalize procArg) = true) ∧
      (processor_key procArg = "AMD" ∨ processor_key procArg = "Intel")) := by
  refine ⟨?_, ?_, ?_⟩
  · intro h
    cases hPL : PLANS (pyCapitalize planArg) <;>
      simp [buy_with_credits, h, hPL]
  · intro h hproc
    cases hp : PRICES (pyCapitalize planArg) with
    | none => exact absurd hp h
    | some r =>
      obtain ⟨sp, hsp⟩ := PLANS_of_PRICES _ r hp
      simp [buy_with_credits, hp, hsp, hproc]
  · intro hmem
    simp only [List.mem_cons, List.mem_singleton] at hmem
    rcases hmem with h | h | h | h
    · rw [processor_key, h]
      exact ⟨by decide, by decide⟩
    · rw [processor_key, h]
      exact ⟨by decide, by decide⟩
    · rw [processor_key, h]
      exact ⟨by decide, by decide⟩
    · simp at h

/-- C4 witness: `"bogus"` fails as an unknown plan, `"ryzen"` fails as an
unknown processor, and the lenient mapping sends `"amd"`, `"aMd"` to AMD
and `"intel"` to Intel. -/
theorem processor_plan_mapping_witness :
    buy_with_credits emptyState "U1" "bogus" "Intel" none 0 true = (.unknownPlan, emptyState) ∧
    buy_with_credits emptyState "U1" "Starter" "ryzen" none 0 true
      = (.unknownProcessor, emptyState) ∧
    processor_key "amd" = "AMD" ∧ processor_key "aMd" = "AMD" ∧
    processor_key "intel" = "Intel" :=
  ⟨(processor_plan_mapping emptyState "U1" "bogus" "Intel" none 0 true).1 (by decide),
   (processor_plan_mapping emptyState "U1" "Starter" "ryzen" none 0 true).2.1
     (by decide) (by decide),
   ((processor_plan_mapping emptyState "U1" "Starter" "amd" none 0 true).2.2
     (by decide)).1.mpr (by decide),
   ((processor_plan_mapping emptyState "U1" "Starter" "aMd" none 0 true).2.2
     (by decide)).1.mpr (by decide),
   by decide⟩

/-- C8: when the buyer's balance is below the plan price, the purchase
fails with the insufficient-credits error before any side effect: the
balance is unchanged (a missing ledger entry is lazily created at 0, as the
data model specifies) and the record table is untouched. -/
theorem insufficient_credits_check_first
    (st : BotState) (uid planArg procArg : String) (storage : Option Int)
    (now : Nat) (ok : Bool) (prices : PriceRow)
    (hp : PRICES (pyCapitalize planArg) = some prices)
    (hproc : pyCapitalize procArg ∈ (["Intel", "AMD", "Amd"] : List String))
    (hbal : getCredits st uid < priceFor prices (processor_key procArg)) :
    (buy_with_credits st uid planArg procArg storage now ok).1 = .insufficientCredits ∧
    getCredits (buy_with_credits st uid planArg procArg storage now ok).2 uid
      = getCredits st uid ∧
    (buy_with_credits st uid planArg procArg storage now ok).2.vps_data = st.vps_data := by
  obtain ⟨sp, hsp⟩ := PLANS_of_PRICES _ prices hp
  have hbal' : getCredits (ensureUser st uid) uid < priceFor prices (processor_key procArg) := by
    rw [getCredits_ensureUser]; exact hbal
  simp [buy_with_credits, hp, hsp, hproc, hbal, hbal', getCredits_ensureUser,
    vps_data_ensureUser]

/-- C8 witness: owner `U1` with 0 credits purchasing Starter/Intel (cost 42)
fails with the insufficient-credits error, the balance stays 0 and no
record is created. -/
theorem insufficient_credits_check_first_witness :
    (buy_with_credits emptyState "U1" "Starter" "Intel" none 0 true).1
      = .insufficientCredits ∧
    getCredits (buy_with_credits emptyState "U1" "Starter" "Intel" none 0 true).2 "U1" = 0 ∧
    (buy_with_credits emptyState "U1" "Starter" "Intel" none 0 true).2.vps_data = [] := by
  have h := insufficient_credits_check_first emptyState "U1" "Starter" "Intel" none 0 true
    ⟨42, 83⟩ (by decide) (by decide) (by decide)
  exact ⟨h.1, h.2.1.trans (by decide), h.2.2⟩

theorem priceFor_pos (p : String) (r : PriceRow) (k : String)
    (h : PRICES p = some r) : 0 < priceFor r k := by
  rcases PRICES_domain p r h with h1 | h1 | h1 | h1 <;> subst h1 <;>
    simp [PRICES] at h <;> subst h <;> unfold priceFor <;> split <;> decide

/-- C1: every `.buywc` run either succeeds — appending exactly one new
record to the buyer's list and debiting the buyer by the (positive) plan
price — or leaves the buyer's record list and credit balance exactly as
they were (the provisioning-failure debit is refunded in the same run).
There is no outcome with credits spent and no record, nor one with a
record and no debit. -/
theorem buy_atomic (st : BotState) (uid planArg procArg : String)
    (storage : Option Int) (now : Nat) (ok : Bool) :
    (∃ v cost,
      (buy_with_credits st uid planArg procArg storage now ok).1 = .purchased v cost ∧
      getVps (buy_with_credits st uid planArg procArg storage now ok).2 uid
        = getVps st uid ++ [v] ∧
      getCredits (buy_with_credits st uid planArg procArg storage now ok).2 uid
        = getCredits st uid - cost ∧
      0 < cost) ∨
    (getVps (buy_with_credits st uid planArg procArg storage now ok).2 uid
        = getVps st uid ∧
      getCredits (buy_with_credits st uid planArg procArg storage now ok).2 uid
        = getCredits st uid) := by
  cases hp : PRICES (pyCapitalize planArg) with
  | none =>
    right
    constructor <;> cases hpl : PLANS (pyCapitalize planArg) <;>
      simp [buy_with_credits, hp, hpl]
  | some prices =>
    cases hpl : PLANS (pyCapitalize planArg) with
    | none =>
      right
      constructor <;> simp [buy_with_credits, hp, hpl]
    | some sp =>
      by_cases hproc : pyCapitalize procArg ∈ (["Intel", "AMD", "Amd"] : List String)
      · by_cases hbal : getCredits st uid < priceFor prices (processor_key procArg)
        · right
          constructor <;>
            simp [buy_with_credits, hp, hpl, hproc, hbal, getVps_ensureUser,
              getCredits_ensureUser]
        · have hbal' : ¬ getCredits (ensureUser st uid) uid
              < priceFor prices (processor_key procArg) := by
            rw [getCredits_ensureUser]; exact hbal
          cases ok with
          | true =>
            left
            refine ⟨VpsRecord.mk (some (pyCapitalize planArg))
                (mkName uid ((getVps st uid).length + 1)) sp.ram sp.cpu
                (effective_storage storage sp.storage) "running" now
                (some (processor_key procArg)) [],
              priceFor prices (processor_key procArg), ?_, ?_, ?_, ?_⟩
            · simp [buy_with_credits, hp, hpl, hproc, hbal, hbal', getVps_setVps_self,
                getVps_ensureVps, getVps_setCredits, getVps_ensureUser]
            · simp [buy_with_credits, hp, hpl, hproc, hbal, hbal', getVps_setVps_self,
                getVps_ensureVps, getVps_setCredits, getVps_ensureUser]
            · simp [buy_with_credits, hp, hpl, hproc, hbal, hbal', getCredits_setVps,
                getCredits_ensureVps, getCredits_setCredits_self, getCredits_ensureUser]
            · exact priceFor_pos _ prices _ hp
          | false =>
            right
            constructor
            · simp [buy_with_credits, hp, hpl, hproc, hbal, hbal', getVps_setCredits,
                getVps_ensureVps, getVps_ensureUser]
            · simp only [buy_with_credits, hp, hpl, if_pos hproc, if_neg hbal',
                if_neg hbal, Bool.false_eq_true, if_false, getCredits_setCredits_self,
                getCredits_ensureVps, getCredits_ensureUser]
              omega
      · right
        constructor <;> simp [buy_with_credits, hp, hpl, hproc]

/-! ## Small list lemmas -/

theorem mem_set_cases {α : Type} (l : List α) :
    ∀ (i : Nat) (b a : α), a ∈ l.set i b → a ∈ l ∨ a = b := by
  induction l with
  | nil => intro i b a h; simp at h
  | cons x xs ih =>
    intro i b a h
    cases i with
    | zero =>
      rcases List.mem_cons.mp h with h1 | h1
      · exact Or.inr h1
      · exact Or.inl (List.mem_cons_of_mem _ h1)
    | succ j =>
      rcases List.mem_cons.mp h with h1 | h1
      · exact Or.inl (h1 ▸ List.mem_cons_self _ _)
      · rcases ih j b a h1 with h2 | h2
        · exact Or.inl (List.mem_cons_of_mem _ h2)
        · exact Or.inr h2

theorem mem_of_getElem_opt {α : Type} (l : List α) :
    ∀ (i : Nat) (a : α), l[i]? = some a → a ∈ l := by
  induction l with
  | nil => intro i a h; simp at h
  | cons x xs ih =>
    intro i a h
    cases i with
    | zero =>
      simp only [List.getElem?_cons_zero, Option.some.injEq] at h
      exact h ▸ List.mem_cons_self _ _
    | succ j =>
      simp only [List.getElem?_cons_succ] at h
      exact List.mem_cons_of_mem _ (ih j a h)

theorem map_eraseIdx_comm {α β : Type} (f : α → β) (l : List α) :
    ∀ i : Nat, (l.eraseIdx i).map f = (l.map f).eraseIdx i := by
  induction l with
  | nil => intro i; simp
  | cons x xs ih =>
    intro i
    cases i with
    | zero => simp
    | succ j => simp [List.eraseIdx_cons_succ, ih j]

/-! ## CPU guard claim -/

theorem getVps_stopAllRecords (st : BotState) (uid : String) :
    getVps (stopAllRecords st) uid = (getVps st uid).map stopRunning := by
  unfold stopAllRecords getVps
  simp only [alLookup_map_values]
  cases alLookup uid st.vps_data <;> simp

/-- C7: while the guard is Active (and the monitor thread alive), a sampled
usage above the threshold issues exactly one stop-all verb and transitions
every `running` record of every owner to `stopped`; records not `running`
are untouched and every field other than `status` — `created_at`
included — is preserved for all records. -/
theorem guard_stop_all_effect (g : GuardState) (usage : Nat)
    (hAct : g.active = true) (hAlive : g.threadAlive = true)
    (hHigh : CPU_THRESHOLD < usage) :
    (guardStep g (.tick usage true)).calls = g.calls ++ [.stopAll] ∧
    (guardStep g (.tick usage true)).samples = g.samples ++ [usage] ∧
    (guardStep g (.tick usage true)).active = g.active ∧
    (guardStep g (.tick usage true)).threadAlive = g.threadAlive ∧
    (∀ uid, getVps (guardStep g (.tick usage true)).st uid
      = (getVps g.st uid).map stopRunning) ∧
    (∀ v : VpsRecord, v.status = "running" →
      stopRunning v = { v with status := "stopped" }) ∧
    (∀ v : VpsRecord, v.status ≠ "running" → stopRunning v = v) ∧
    (∀ v : VpsRecord, (stopRunning v).plan = v.plan ∧
      (stopRunning v).container_name = v.container_name ∧
      (stopRunning v).ram = v.ram ∧ (stopRunning v).cpu = v.cpu ∧
      (stopRunning v).storage = v.storage ∧
      (stopRunning v).created_at = v.created_at ∧
      (stopRunning v).processor = v.processor ∧
      (stopRunning v).shared_with = v.shared_with) := by
  refine ⟨?_, ?_, ?_, ?_, ?_, ?_, ?_, ?_⟩
  · simp [guardStep, hAct, hAlive, hHigh]
  · simp [guardStep, hAct, hAlive, hHigh]
  · simp [guardStep, hAct, hAlive, hHigh]
  · simp [guardStep, hAct, hAlive, hHigh]
  · intro uid
    simp [guardStep, hAct, hAlive, hHigh, getVps_stopAllRecords]
  · intro v hv
    simp [stopRunning, hv]
  · intro v hv
    simp [stopRunning, hv]
  · intro v
    unfold stopRunning
    split <;> simp

/-- C7 witness: the guard at import time, sampling 95% over a store with
one running record `c`, issues one stop-all and stops the record while
keeping every other field. -/
theorem guard_stop_all_effect_witness :
    (guardStep (guardInit resizeExState) (.tick 95 true)).calls = [.stopAll] ∧
    getVps (guardStep (guardInit resizeExState) (.tick 95 true)).st "u"
      = [⟨none, "c", 4, 1, 20, "stopped", 0, none, []⟩] := by
  have h := guard_stop_all_effect (guardInit resizeExState) 95 rfl rfl (by decide)
  exact ⟨h.1.trans (by decide), (h.2.2.2.2.1 "u").trans (by decide)⟩

/-! ## Share invariant claim -/

theorem sharedOk_iff (st : BotState) :
    sharedOkB st = true ↔ ∀ p ∈ st.vps_data, ∀ v ∈ p.2, p.1 ∉ v.shared_with := by
  simp [sharedOkB, List.all_eq_true]

/-- C6 amended: `share-user` never compares the grantee against the owner,
so sharing a record with its own owner inserts the owner into
`shared_with`; for every call whose grantee differs from the owner, the
invariant that no record's `shared_with` contains its owner is preserved. -/
theorem share_preserves_owner_not_shared (st : BotState) (author grantee : String)
    (n : Int) (hne : grantee ≠ author) (hok : sharedOkB st = true) :
    sharedOkB (share_user st author grantee n).2 = true := by
  unfold share_user
  cases hl : alLookup author st.vps_data with
  | none => exact hok
  | some vlist =>
    by_cases hrange : n < 1 ∨ n > (vlist.length : Int)
    · simp only [if_pos hrange]; exact hok
    · simp only [if_neg hrange]
      cases hv : vlist[(n - 1).toNat]? with
      | none => exact hok
      | some v =>
        by_cases hmem : grantee ∈ v.shared_with
        · simp only [if_pos hmem]; exact hok
        · simp only [if_neg hmem]
          rw [sharedOk_iff] at hok ⊢
          intro p hp v' hv'
          rcases mem_alSet _ _ _ p hp with hcase | hcase
          · subst hcase
            rcases mem_set_cases _ _ _ v' hv' with h1 | h1
            · exact hok (author, vlist) (alLookup_mem _ _ _ hl) v' h1
            · subst h1
              simp only [List.mem_append, List.mem_singleton]
              rintro (h2 | h2)
              · exact hok (author, vlist) (alLookup_mem _ _ _ hl) v
                  (mem_of_getElem_opt _ _ _ hv) h2
              · exact hne (h2.symm)
          · exact hok p hcase v' hv'

/-- C6 amended witness: sharing owner `u`'s VPS #1 with the distinct user
`w` keeps the invariant satisfied. -/
theorem share_preserves_owner_not_shared_witness :
    sharedOkB oneVpsState = true ∧
    sharedOkB (share_user oneVpsState "u" "w" 1).2 = true :=
  ⟨by decide,
   share_preserves_owner_not_shared oneVpsState "u" "w" 1 (by decide) (by decide)⟩

/-! ## Resize claim -/

theorem map_ramcpu_storage_update (container : String) (gb : Int) (l : List VpsRecord) :
    ((l.map (fun v =>
        if v.container_name = container then { v with storage := gb } else v)).map
      (fun v => (v.ram, v.cpu))) = l.map (fun v => (v.ram, v.cpu)) := by
  induction l with
  | nil => rfl
  | cons x xs ih =>
    simp only [List.map_cons, List.cons.injEq]
    refine ⟨?_, ih⟩
    split <;> rfl

theorem ramcpu_update_storage (st : BotState) (container : String) (gb : Int)
    (uid : String) :
    ((getVps (update_storage_records st container gb) uid).map (fun v => (v.ram, v.cpu)))
      = (getVps st uid).map (fun v => (v.ram, v.cpu)) := by
  unfold update_storage_records getVps
  simp only [alLookup_map_values]
  cases alLookup uid st.vps_data with
  | none => rfl
  | some l => exact map_ramcpu_storage_update container gb l

/-- C3 amended: `resize` attempts the supplied dimensions in the order
ram, cpu, storage and aborts at the first failed runtime call, so later
dimensions are not attempted; only the storage dimension ever updates a
stored field (the stored ram and cpu fields are unchanged even when their
runtime calls succeed), and the single flush runs exactly when every
attempted call succeeded; in particular, whenever the storage quota call
fails the store is unchanged, the error is surfaced and nothing is
flushed. -/
theorem resize_amended (st : BotState) (container : String)
    (ram cpu storage : Option Int) (ramOk cpuOk quotaOk : Bool) :
    (∀ uid, ((getVps (resize_vps st container ram cpu storage ramOk cpuOk quotaOk).st
        uid).map (fun v => (v.ram, v.cpu)))
      = (getVps st uid).map (fun v => (v.ram, v.cpu))) ∧
    ((resize_vps st container ram cpu storage ramOk cpuOk quotaOk).ok = false →
      (resize_vps st container ram cpu storage ramOk cpuOk quotaOk).st = st ∧
      (resize_vps st container ram cpu storage ramOk cpuOk quotaOk).flushed = false) ∧
    ((resize_vps st container ram cpu storage ramOk cpuOk quotaOk).flushed
      = (resize_vps st container ram cpu storage ramOk cpuOk quotaOk).ok) ∧
    (pyTruthy ram = true → ramOk = false →
      (resize_vps st container ram cpu storage ramOk cpuOk quotaOk).calls
        = [.setMemory container (ram.getD 0 * 1024)] ∧
      (resize_vps st container ram cpu storage ramOk cpuOk quotaOk).ok = false) ∧
    (pyTruthy storage = true → quotaOk = false →
      (resize_vps st container ram cpu storage ramOk cpuOk quotaOk).ok = false ∧
      (resize_vps st container ram cpu storage ramOk cpuOk quotaOk).st = st ∧
      (resize_vps st container ram cpu storage ramOk cpuOk quotaOk).flushed = false) := by
  refine ⟨?_, ?_, ?_, ?_, ?_⟩
  · intro uid
    unfold resize_vps
    split_ifs <;> simp [ramcpu_update_storage]
  · unfold resize_vps
    split_ifs <;> simp
  · unfold resize_vps
    split_ifs <;> rfl
  · intro h1 h2
    unfold resize_vps
    simp [h1, h2]
  · intro hs hq
    unfold resize_vps
    split_ifs <;> simp_all

/-- C3 amended witness: `resize(c, storage=50)` with the quota call failing
surfaces the error, leaves the stored record (4 GB ram, 1 cpu, 20 GB
storage) untouched and flushes nothing. -/
theorem resize_amended_witness :
    (resize_vps resizeExState "c" none none (some 50) true true false).ok = false ∧
    (resize_vps resizeExState "c" none none (some 50) true true false).st
      = resizeExState ∧
    (resize_vps resizeExState "c" none none (some 50) true true false).flushed = false ∧
    ((getVps (resize_vps resizeExState "c" none none (some 50) true true false).st
      "u").map (fun v => (v.ram, v.cpu))) = [(4, 1)] := by
  have h := resize_amended resizeExState "c" none none (some 50) true true false
  have h5 := h.2.2.2.2 (by decide) (by decide)
  exact ⟨h5.1, h5.2.1, h5.2.2.trans rfl, (h.1 "u").trans (by decide)⟩

/-! ## Naming and sequencing claim -/

theorem namedFrom_append_one (uid : String) (v : VpsRecord) :
    ∀ (k : Nat) (l : List VpsRecord),
      namedFrom uid k (l ++ [v])
        = (namedFrom uid k l && (v.container_name == mkName uid (k + l.length))) := by
  intro k l
  induction l generalizing k with
  | nil => simp [namedFrom]
  | cons x xs ih =>
    simp only [List.cons_append, namedFrom, List.append_eq, ih (k + 1), List.length_cons]
    rw [Bool.and_assoc]
    have h : k + 1 + xs.length = k + (xs.length + 1) := by omega
    rw [h]

theorem namedFrom_get (uid : String) :
    ∀ (l : List VpsRecord) (k : Nat), namedFrom uid k l = true →
      ∀ (i : Nat) (hi : i < l.length),
        (l.get ⟨i, hi⟩).container_name = mkName uid (k + i) := by
  intro l
  induction l with
  | nil => intro k _ i hi; simp at hi
  | cons x xs ih =>
    intro k h i hi
    simp only [namedFrom, Bool.and_eq_true, beq_iff_eq] at h
    cases i with
    | zero =>
      have hx : List.get (x :: xs) ⟨0, hi⟩ = x := rfl
      rw [hx, Nat.add_zero]
      exact h.1
    | succ j =>
      have hj : j < xs.length := Nat.lt_of_succ_lt_succ (by simpa using hi)
      have hrec := ih (k + 1) h.2 j hj
      have hg : List.get (x :: xs) ⟨j + 1, hi⟩ = List.get xs ⟨j, hj⟩ := rfl
      rw [hg, hrec]
      congr 1
      omega

theorem namedOk_iff (st : BotState) :
    namedOkB st = true ↔ ∀ p ∈ st.vps_data, namedFrom p.1 1 p.2 = true := by
  simp [namedOkB, List.all_eq_true]

theorem namedOk_getVps (st : BotState) (uid : String) (h : namedOkB st = true) :
    namedFrom uid 1 (getVps st uid) = true := by
  unfold getVps
  cases hl : alLookup uid st.vps_data with
  | none => rfl
  | some l => exact (namedOk_iff st).mp h (uid, l) (alLookup_mem _ _ _ hl)

theorem namedOk_ensureVps (st : BotState) (uid : String) (h : namedOkB st = true) :
    namedOkB (ensureVps st uid) = true := by
  unfold ensureVps
  cases alLookup uid st.vps_data with
  | some l => exact h
  | none =>
    rw [namedOk_iff]
    intro p hp
    rcases List.mem_append.mp hp with hm | hm
    · exact (namedOk_iff st).mp h p hm
    · rw [List.mem_singleton.mp hm]; rfl

theorem namedOk_ensureUser (st : BotState) (uid : String) (h : namedOkB st = true) :
    namedOkB (ensureUser st uid) = true := by
  unfold namedOkB
  rw [vps_data_ensureUser]
  exact h

theorem namedOk_setVps_append (st : BotState) (uid : String) (v : VpsRecord)
    (h : namedOkB st = true)
    (hname : v.container_name = mkName uid ((getVps st uid).length + 1)) :
    namedOkB (setVps st uid (getVps st uid ++ [v])) = true := by
  rw [namedOk_iff]
  intro p hp
  rcases mem_alSet _ _ _ p hp with hcase | hcase
  · subst hcase
    rw [namedFrom_append_one]
    have h1 := namedOk_getVps st uid h
    simp only [h1, Bool.true_and, beq_iff_eq, hname]
    have : 1 + (getVps st uid).length = (getVps st uid).length + 1 := by omega
    rw [this]
  · exact (namedOk_iff st).mp h p hcase

theorem buy_preserves_namedOk (st : BotState) (uid planArg procArg : String)
    (storage : Option Int) (now : Nat) (ok : Bool) (h : namedOkB st = true) :
    namedOkB (buy_with_credits st uid planArg procArg storage now ok).2 = true := by
  cases hp : PRICES (pyCapitalize planArg) with
  | none =>
    cases hpl : PLANS (pyCapitalize planArg) <;>
      simpa only [buy_with_credits, hp, hpl] using h
  | some prices =>
    cases hpl : PLANS (pyCapitalize planArg) with
    | none => simpa only [buy_with_credits, hp, hpl] using h
    | some sp =>
      simp only [buy_with_credits, hp, hpl]
      split
      · split
        · exact namedOk_ensureUser st uid h
        · split
          · exact namedOk_setVps_append _ uid _
              (namedOk_ensureVps _ _ (namedOk_ensureUser st uid h)) rfl
          · exact namedOk_ensureVps _ _ (namedOk_ensureUser st uid h)
      · exact h

theorem create_preserves_namedOk (st : BotState) (uid : String)
    (ram cpu storage : Int) (now : Nat) (ok : Bool) (h : namedOkB st = true) :
    namedOkB (create_vps st uid ram cpu storage now ok).2 = true := by
  simp only [create_vps]
  split
  · exact h
  · split
    · exact namedOk_setVps_append _ uid _ (namedOk_ensureVps st uid h) rfl
    · exact namedOk_ensureVps st uid h

theorem buy_name_formula (st : BotState) (uid planArg procArg : String)
    (storage : Option Int) (now : Nat) (ok : Bool) (v : VpsRecord) (cost : Int)
    (heq : (buy_with_credits st uid planArg procArg storage now ok).1
      = .purchased v cost) :
    v.container_name = mkName uid ((getVps st uid).length + 1) := by
  simp only [buy_with_credits] at heq
  split at heq
  · split at heq
    · split at heq
      · simp at heq
      · split at heq
        · simp only [BuyResult.purchased.injEq] at heq
          rw [← heq.1]
          simp [getVps_ensureVps, getVps_setCredits, getVps_ensureUser]
        · simp at heq
    · simp at heq
  · simp at heq

theorem create_name_formula (st : BotState) (uid : String)
    (ram cpu storage : Int) (now : Nat) (ok : Bool) (v : VpsRecord)
    (heq : (create_vps st uid ram cpu storage now ok).1 = .created v) :
    v.container_name = mkName uid ((getVps st uid).length + 1) := by
  simp only [create_vps] at heq
  split at heq
  · simp at heq
  · split at heq
    · simp only [CreateResult.created.injEq] at heq
      rw [← heq]
      simp [getVps_ensureVps]
    · simp at heq

theorem delete_keeps_names (st : BotState) (uid : String) (n : Int)
    (l : List VpsRecord) (hl : alLookup uid st.vps_data = some l)
    (hrange : ¬(n < 1 ∨ n > (l.length : Int)))
    (hne : l.eraseIdx (n - 1).toNat ≠ []) :
    (getVps (delete_vps st uid n true).2 uid).map (fun v => v.container_name)
      = (l.map (fun v => v.container_name)).eraseIdx (n - 1).toNat := by
  have hempty : (l.eraseIdx (n - 1).toNat).isEmpty = false := by
    cases he : l.eraseIdx (n - 1).toNat with
    | nil => exact absurd he hne
    | cons x xs => rfl
  unfold delete_vps
  rw [hl]
  simp only [if_neg hrange, eq_self_iff_true, if_true, hempty, Bool.false_eq_true,
    if_false, getVps_setVps_self]
  exact map_eraseIdx_comm _ l ((n - 1).toNat)

theorem namedOk_names_inj (st : BotState) (h : namedOkB st = true)
    (uid uid' : String) (l l' : List VpsRecord)
    (hl : alLookup uid st.vps_data = some l)
    (hl' : alLookup uid' st.vps_data = some l')
    (i j : Nat) (hi : i < l.length) (hj : j < l'.length)
    (hname : (l.get ⟨i, hi⟩).container_name = (l'.get ⟨j, hj⟩).container_name) :
    uid = uid' ∧ i = j := by
  have h1 := namedFrom_get uid l 1
    ((namedOk_iff st).mp h (uid, l) (alLookup_mem _ _ _ hl)) i hi
  have h2 := namedFrom_get uid' l' 1
    ((namedOk_iff st).mp h (uid', l') (alLookup_mem _ _ _ hl')) j hj
  rw [h1, h2] at hname
  obtain ⟨ha, hb⟩ := mkName_inj _ _ _ _ hname
  exact ⟨ha, by omega⟩

/-- C2 amended: create and purchase assign the container name
`vps-<owner>-<n>` with `n` = current length of the owner's list + 1 at call
time, and deletion removes exactly the indexed record without renaming the
survivors; however sequence numbers are computed from the *current* length,
so after a deletion the next number can repeat an existing one — the
claimed uniqueness of `container_name` therefore holds only across
deletion-free histories: both operations preserve the deletion-free naming
shape `namedOkB`, and in any state of that shape all records of all owners
carry pairwise distinct names. -/
theorem naming_sequence_amended (st : BotState) (uid : String) :
    (∀ (planArg procArg : String) (storage : Option Int) (now : Nat) (ok : Bool)
        (v : VpsRecord) (cost : Int),
      (buy_with_credits st uid planArg procArg storage now ok).1 = .purchased v cost →
      v.container_name = mkName uid ((getVps st uid).length + 1)) ∧
    (∀ (ram cpu storage : Int) (now : Nat) (ok : Bool) (v : VpsRecord),
      (create_vps st uid ram cpu storage now ok).1 = .created v →
      v.container_name = mkName uid ((getVps st uid).length + 1)) ∧
    (∀ (n : Int) (l : List VpsRecord), alLookup uid st.vps_data = some l →
      ¬(n < 1 ∨ n > (l.length : Int)) → l.eraseIdx (n - 1).toNat ≠ [] →
      (getVps (delete_vps st uid n true).2 uid).map (fun v => v.container_name)
        = (l.map (fun v => v.container_name)).eraseIdx (n - 1).toNat) ∧
    (namedOkB st = true →
      (∀ (planArg procArg : String) (storage : Option Int) (now : Nat) (ok : Bool),
        namedOkB (buy_with_credits st uid planArg procArg storage now ok).2 = true) ∧
      (∀ (ram cpu storage : Int) (now : Nat) (ok : Bool),
        namedOkB (create_vps st uid ram cpu storage now ok).2 = true) ∧
      (∀ (uid1 uid2 : String) (l1 l2 : List VpsRecord),
        alLookup uid1 st.vps_data = some l1 → alLookup uid2 st.vps_data = some l2 →
        ∀ (i j : Nat) (hi : i < l1.length) (hj : j < l2.length),
          (l1.get ⟨i, hi⟩).container_name = (l2.get ⟨j, hj⟩).container_name →
          uid1 = uid2 ∧ i = j)) :=
  ⟨fun planArg procArg storage now ok v cost heq =>
      buy_name_formula st uid planArg procArg storage now ok v cost heq,
   fun ram cpu storage now ok v heq =>
      create_name_formula st uid ram cpu storage now ok v heq,
   fun n l hl hrange hne => delete_keeps_names st uid n l hl hrange hne,
   fun h =>
    ⟨fun planArg procArg storage now ok =>
        buy_preserves_namedOk st uid planArg procArg storage now ok h,
     fun ram cpu storage now ok =>
        create_preserves_namedOk st uid ram cpu storage now ok h,
     fun uid1 uid2 l1 l2 hl1 hl2 i j hi hj hname =>
        namedOk_names_inj st h uid1 uid2 l1 l2 hl1 hl2 i j hi hj hname⟩⟩

/-- C2 amended witness: over the three-record owner `u` — the next created
record is named `vps-u-4`; deleting VPS #2 keeps the survivors' stored
names `vps-u-1`, `vps-u-3`; purchase and create preserve the naming shape;
and in the well-named state equal names force equal owner and position. -/
theorem naming_sequence_amended_witness :
    (VpsRecord.mk none "vps-u-4" 4 1 10 "running" 0 none []).container_name
      = mkName "u" ((getVps threeVpsState "u").length + 1) ∧
    (VpsRecord.mk (some "Starter") "vps-U1-1" 4 1 20 "running" 7
        (some "Intel") []).container_name
      = mkName "U1" ((getVps (admin_credits emptyState "U1" 100).2 "U1").length + 1) ∧
    ((getVps (delete_vps threeVpsState "u" 2 true).2 "u").map
      (fun v => v.container_name)) = ["vps-u-1", "vps-u-3"] ∧
    namedOkB (create_vps threeVpsState "u" 4 1 10 0 true).2 = true ∧
    ("u" = "u" ∧ (0 : Nat) = 0) := by
  have h := naming_sequence_amended threeVpsState "u"
  have h2 := naming_sequence_amended (admin_credits emptyState "U1" 100).2 "U1"
  refine ⟨?_, ?_, ?_, ?_, ?_⟩
  · exact h.2.1 4 1 10 0 true _ (by decide)
  · exact h2.1 "Starter" "Intel" none 7 true _ 42 (by decide)
  · have hd := h.2.2.1 2 [exRecord 1, exRecord 2, exRecord 3]
      (by decide) (by decide) (by decide)
    exact hd.trans (by decide)
  · exact (h.2.2.2 (by decide)).2.1 4 1 10 0 true
  · exact (h.2.2.2 (by decide)).2.2 "u" "u"
      [exRecord 1, exRecord 2, exRecord 3] [exRecord 1, exRecord 2, exRecord 3]
      (by decide) (by decide) 0 0 (by decide) (by decide) rfl

end Hypod
